import Mathlib

/-!
SurgePV issue tracker — verification of the consistency engine

Shallow embedding of the SurgePV issue-tracker core (`app/models`,
`app/repositories`, `app/services`, `app/services/timeline.py`) and proofs
about it.  Database state is modelled as an explicit `Store` record that is
threaded through every operation; `datetime.utcnow()` is modelled by the
`now` field of the store (a `Nat` clock); fallible service calls return
`Except ServiceError` (an `HTTPException` raised before any mutation leaves
the store unchanged, which the embedding expresses by returning the input
store alongside the error).  Response-model serialisation (`IssueResponse`
etc.) and the free-form `details` / `user` payload of timeline events are
response decoration that no control flow reads; the embedding returns the
domain values themselves.
-/

namespace SurgePV

/-- The `IssueStatus` enumeration from `app/models/__init__.py` (`open`,
`in_progress`, `resolved`, `closed`).  `open` is a Lean keyword, hence
`open_`. -/
inductive IssueStatus
  | open_
  | in_progress
  | resolved
  | closed
deriving DecidableEq, Repr

/-- The `IssuePriority` enumeration from `app/models/__init__.py`. -/
inductive IssuePriority
  | low
  | medium
  | high
  | critical
deriving DecidableEq, Repr

/-- The string value of a status, as in the Python `str`-enum. -/
def IssueStatus.value : IssueStatus → String
  | .open_ => "open"
  | .in_progress => "in_progress"
  | .resolved => "resolved"
  | .closed => "closed"

/-- The string value of a priority, as in the Python `str`-enum. -/
def IssuePriority.value : IssuePriority → String
  | .low => "low"
  | .medium => "medium"
  | .high => "high"
  | .critical => "critical"

/-- Lowercasing, `raw.lower()`.  (Defined by mapping over the character list so that it
reduces definitionally; `String.toLower` in core does not.) -/
def lowerString (raw : String) : String :=
  String.mk (raw.data.map Char.toLower)

/-- Integer parsing, `int(raw)`, on a decimal digit string; `none` models the `ValueError`
branch of a non-numeric id. -/
def parseNat (raw : String) : Option Nat :=
  let rec go : List Char → Nat → Option Nat
    | [], acc => some acc
    | c :: rest, acc =>
      if c.isDigit then go rest (acc * 10 + (c.toNat - 48)) else none
  if raw.data.isEmpty then none else go raw.data 0

/-- Status parsing, `IssueStatus(raw.lower())`: parse a raw string case-insensitively against
the enum values; `none` models the `ValueError` branch. -/
def parseStatus (raw : String) : Option IssueStatus :=
  match lowerString raw with
  | "open" => some .open_
  | "in_progress" => some .in_progress
  | "resolved" => some .resolved
  | "closed" => some .closed
  | _ => none

/-- Priority parsing, `IssuePriority(raw.lower())`, as `parseStatus`. -/
def parsePriority (raw : String) : Option IssuePriority :=
  match lowerString raw with
  | "low" => some .low
  | "medium" => some .medium
  | "high" => some .high
  | "critical" => some .critical
  | _ => none

/-- The `Issue` row from `app/models/__init__.py`.  Timestamps are `Nat`
ticks; `version` starts at 1 (column default). -/
structure Issue where
  id : Nat
  title : String
  description : Option String
  status : IssueStatus
  priority : IssuePriority
  version : Nat
  assignee_id : Option Nat
  created_at : Nat
  updated_at : Nat
  resolved_at : Option Nat
deriving DecidableEq, Repr

/-- The `Label` row (`id`, globally unique `name`, optional `color`,
optional `description`). -/
structure Label where
  id : Nat
  name : String
  color : Option String
  description : Option String
deriving DecidableEq, Repr

/-- The `Comment` row (fields the core reads). -/
structure Comment where
  id : Nat
  issue_id : Nat
  body : String
  author_id : Nat
  created_at : Nat
deriving DecidableEq, Repr

/-- The `IssueUpdate` request schema (`app/schemas/__init__.py`): every field
optional except `version`; `none` models a field absent from the patch
(`model_dump(exclude_unset=True)` drops it). -/
structure IssueUpdate where
  title : Option String := none
  description : Option String := none
  status : Option IssueStatus := none
  priority : Option IssuePriority := none
  assignee_id : Option Nat := none
  version : Nat
deriving DecidableEq, Repr

/-- Failure kinds of the service layer, following the spec taxonomy: the
code raises `HTTPException(404)`, `HTTPException(409)` and
`HTTPException(400)` respectively (the bulk path raises
`ValueError("One or more issue IDs not found")` in the repository, which
the service converts to an HTTP error — its kind in the taxonomy is
`notFound`). -/
inductive ServiceError
  | notFound
  | versionConflict
  | validationError
deriving DecidableEq, Repr

instance {ε α : Type} [DecidableEq ε] [DecidableEq α] : DecidableEq (Except ε α) :=
  fun a b =>
    match a, b with
    | .error x, .error y =>
      if h : x = y then isTrue (by rw [h]) else isFalse (by intro hh; cases hh; exact h rfl)
    | .error _, .ok _ => isFalse (by intro hh; cases hh)
    | .ok _, .error _ => isFalse (by intro hh; cases hh)
    | .ok x, .ok y =>
      if h : x = y then isTrue (by rw [h]) else isFalse (by intro hh; cases hh; exact h rfl)

/-- The database state threaded through every operation: the four tables,
the `issue_labels` association pairs, id counters for inserted rows, and the
`now` clock standing for `datetime.utcnow()`. -/
structure Store where
  issues : List Issue
  users : List Nat
  labels : List Label
  issue_labels : List (Nat × Nat)
  comments : List Comment
  next_issue_id : Nat
  next_label_id : Nat
  now : Nat
deriving DecidableEq, Repr

/-- Lookup `IssueRepository.get_by_id`: `SELECT ... WHERE Issue.id == issue_id`,
`scalar_one_or_none`. -/
def getIssue (st : Store) (issue_id : Nat) : Option Issue :=
  st.issues.find? (fun i => i.id == issue_id)

/-- Existence check `UserRepository.exists`: `count(*) WHERE User.id == user_id > 0`. -/
def userExists (st : Store) (user_id : Nat) : Bool :=
  st.users.contains user_id

/-- Persist a mutated issue row: the row with the same id is replaced. -/
def putIssue (st : Store) (issue : Issue) : Store :=
  { st with issues := st.issues.map (fun i => if i.id == issue.id then issue else i) }

/-- The assignee validation of `IssueService.update_issue` lines 120-126:
`if issue_data.assignee_id is not None: user_repo.exists(...)`. -/
def assigneeOk (st : Store) (assignee : Option Nat) : Bool :=
  match assignee with
  | some user_id => userExists st user_id
  | none => true

/-- Field application, `IssueService.update_issue` lines 129-131: apply exactly the fields
present in the patch (`model_dump` with the `version` key excluded and `exclude_unset` set, followed by `setattr`); absent fields keep their prior values.  The schema
has no `resolved_at` field, so the patch never touches it here. -/
def applyPatch (issue : Issue) (d : IssueUpdate) : Issue :=
  { issue with
    title := match d.title with | some t => t | none => issue.title
    description := match d.description with | some s => some s | none => issue.description
    status := match d.status with | some s => s | none => issue.status
    priority := match d.priority with | some p => p | none => issue.priority
    assignee_id := match d.assignee_id with | some a => some a | none => issue.assignee_id }

/-- Resolution-timestamp policy, `IssueService.update_issue` lines 133-137, evaluated after the patch is
applied: `if issue_data.status == RESOLVED and not issue.resolved_at` set
`resolved_at = utcnow()`; `elif issue_data.status and issue_data.status !=
RESOLVED` clear it.  (`issue_data.status` is truthy exactly when it is not
`None`, every enum value being a non-empty string.) -/
def applyResolvedPolicy (now : Nat) (patchStatus : Option IssueStatus) (issue : Issue) : Issue :=
  if patchStatus = some IssueStatus.resolved ∧ issue.resolved_at = none then
    { issue with resolved_at := some now }
  else if patchStatus ≠ none ∧ patchStatus ≠ some IssueStatus.resolved then
    { issue with resolved_at := none }
  else
    issue

/-- Row update `IssueRepository.update`: `issue.version += 1; issue.updated_at =
datetime.utcnow()`. -/
def repoUpdate (now : Nat) (issue : Issue) : Issue :=
  { issue with version := issue.version + 1, updated_at := now }

/-- Service `IssueService.update_issue`: not-found check, optimistic version check
(`if issue.version != issue_data.version: raise 409`), assignee validation,
then patch application, resolved-timestamp policy, repository update and
commit.  Every error is raised before any mutation, so the error branches
return the input store. -/
def IssueService.update_issue (st : Store) (issue_id : Nat) (d : IssueUpdate) :
    Store × Except ServiceError Issue :=
  match getIssue st issue_id with
  | none => (st, .error .notFound)
  | some issue =>
    if issue.version ≠ d.version then
      (st, .error .versionConflict)
    else if assigneeOk st d.assignee_id = false then
      (st, .error .validationError)
    else
      let issue1 := applyResolvedPolicy st.now d.status (applyPatch issue d)
      let issue2 := repoUpdate st.now issue1
      (putIssue st issue2, .ok issue2)

/-- The per-issue mutation of `IssueRepository.bulk_update_status` lines
116-127: set the status, `version += 1`, `updated_at = utcnow()`, then the
resolved-timestamp policy (`if status == RESOLVED and not issue.resolved_at`
set, `elif status != RESOLVED` clear). -/
def bulkApply (now : Nat) (status : IssueStatus) (issue : Issue) : Issue :=
  let i1 := { issue with status := status, version := issue.version + 1, updated_at := now }
  if status = IssueStatus.resolved ∧ i1.resolved_at = none then
    { i1 with resolved_at := some now }
  else if status ≠ IssueStatus.resolved then
    { i1 with resolved_at := none }
  else
    i1

/-- The `for issue in issues` mutation loop of the bulk update: every row
whose id is listed is mutated in place, the rest are untouched. -/
def bulkMutate (st : Store) (issue_ids : List Nat) (status : IssueStatus) : List Issue :=
  st.issues.map (fun i => if issue_ids.contains i.id then bulkApply st.now status i else i)

/-- Repository `IssueRepository.bulk_update_status`: fetch all rows whose id is in the
list, raise `ValueError` when `len(issues) != len(issue_ids)` (before any
mutation), otherwise mutate every fetched row and return the loop count. -/
def IssueRepository.bulk_update_status (st : Store) (issue_ids : List Nat)
    (status : IssueStatus) : Except String (Store × Nat) :=
  let issues := st.issues.filter (fun i => issue_ids.contains i.id)
  if issues.length ≠ issue_ids.length then
    .error "One or more issue IDs not found"
  else
    .ok ({ st with issues := bulkMutate st issue_ids status }, issues.length)

/-- Service `IssueService.bulk_update_status`: commit on success; on the
`ValueError` of the repository roll back (the store is as before) and raise —
the spec taxonomy calls this failure kind `NotFound`. -/
def IssueService.bulk_update_status (st : Store) (issue_ids : List Nat)
    (status : IssueStatus) : Store × Except ServiceError Nat :=
  match IssueRepository.bulk_update_status st issue_ids status with
  | .ok (st1, n) => (st1, .ok n)
  | .error _ => (st, .error .notFound)

/-- Lookup `LabelRepository.get_by_name`: `SELECT ... WHERE Label.name == name`. -/
def get_by_name (st : Store) (name : String) : Option Label :=
  st.labels.find? (fun l => l.name == name)

/-- Upsert `LabelRepository.get_or_create` (called with `color=None` from label
replacement): look up by name, create `Label(name=name, color=None)` when
absent. -/
def get_or_create (st : Store) (name : String) : Store × Label :=
  match get_by_name st name with
  | some l => (st, l)
  | none =>
    let l : Label := { id := st.next_label_id, name := name, color := none, description := none }
    ({ st with labels := st.labels ++ [l], next_label_id := st.next_label_id + 1 }, l)

/-- The `for name in label_names: get_or_create` loop of
`LabelRepository.replace_issue_labels`, accumulating the resolved labels in
order. -/
def resolveLabels (st : Store) : List String → Store × List Label
  | [] => (st, [])
  | name :: rest =>
    let r1 := get_or_create st name
    let r2 := resolveLabels r1.1 rest
    (r2.1, r1.2 :: r2.2)

/-- Repository `LabelRepository.replace_issue_labels`: resolve every name, then
`issue.labels = labels` — the association rows of this issue are replaced
by one row per resolved label. -/
def LabelRepository.replace_issue_labels (st : Store) (issue_id : Nat)
    (label_names : List String) : Store :=
  let r := resolveLabels st label_names
  { r.1 with issue_labels :=
      r.1.issue_labels.filter (fun p => ¬ p.1 = issue_id)
        ++ r.2.map (fun l => (issue_id, l.id)) }

/-- Service `IssueService.replace_labels`: not-found check, then atomic replacement
and commit. -/
def IssueService.replace_labels (st : Store) (issue_id : Nat)
    (label_names : List String) : Store × Except ServiceError Unit :=
  match getIssue st issue_id with
  | none => (st, .error .notFound)
  | some _ => (LabelRepository.replace_issue_labels st issue_id label_names, .ok ())

/-- One data row of the uploaded CSV as `csv.DictReader` yields it.  A
missing or empty field is the empty string (`row.get` is falsy for both, and the description field defaults to the empty string). -/
structure CsvRow where
  title : String
  description : String
  status : String
  priority : String
  assignee_id : String
deriving DecidableEq, Repr

/-- The `CSVImportError` response schema: 1-based row number (header is row 1)
and the error messages of that row. -/
structure CSVImportError where
  row_number : Nat
  errors : List String
deriving DecidableEq, Repr

/-- The `CSVImportResponse` response schema. -/
structure CSVImportResponse where
  total_rows : Nat
  successful : Nat
  failed : Nat
  errors : List CSVImportError
deriving DecidableEq, Repr

/-- Import lines 254-256: `if not row.get(title)` record
`"Title is required"`. -/
def titleCheck (row : CsvRow) : List String :=
  if row.title = "" then ["Title is required"] else []

/-- Import lines 258-264: status parsed case-insensitively, defaulting to
`open` when absent, recorded as an error when present but unparsable. -/
def statusCheck (row : CsvRow) : IssueStatus × List String :=
  if row.status ≠ "" then
    match parseStatus row.status with
    | some s => (s, [])
    | none => (IssueStatus.open_, ["Invalid status: " ++ row.status])
  else (IssueStatus.open_, [])

/-- Import lines 266-272: priority parsed the same way, defaulting to
`medium`. -/
def priorityCheck (row : CsvRow) : IssuePriority × List String :=
  if row.priority ≠ "" then
    match parsePriority row.priority with
    | some p => (p, [])
    | none => (IssuePriority.medium, ["Invalid priority: " ++ row.priority])
  else (IssuePriority.medium, [])

/-- Import lines 274-283: `assignee_id` must parse as an integer and
reference an existing user. -/
def assigneeCheck (st : Store) (row : CsvRow) : Option Nat × List String :=
  if row.assignee_id ≠ "" then
    match parseNat row.assignee_id with
    | some a =>
      (some a,
       if userExists st a then []
       else ["Assignee ID " ++ toString a ++ " does not exist"])
    | none => (none, ["Invalid assignee_id: " ++ row.assignee_id])
  else (none, [])

/-- All validation errors of one row, in source order. -/
def rowErrors (st : Store) (row : CsvRow) : List String :=
  titleCheck row ++ (statusCheck row).2 ++ (priorityCheck row).2 ++ (assigneeCheck st row).2

/-- The `Issue(...)` constructed for a valid row (lines 291-297): fields
taken literally from the row; `version`, `created_at`, `updated_at`,
`resolved_at` take their column defaults (1, now, now, NULL). -/
def mkImportIssue (st : Store) (row : CsvRow) : Issue :=
  { id := st.next_issue_id
    title := row.title
    description := some row.description
    status := (statusCheck row).1
    priority := (priorityCheck row).1
    version := 1
    assignee_id := (assigneeCheck st row).1
    created_at := st.now
    updated_at := st.now
    resolved_at := none }

/-- Insertion of a freshly constructed issue row. -/
def insertImportIssue (st : Store) (row : CsvRow) : Store :=
  { st with issues := st.issues ++ [mkImportIssue st row],
            next_issue_id := st.next_issue_id + 1 }

/-- The `for row_num, row in enumerate(csv_reader, start=2)` loop: each row
is validated independently; a row with errors is skipped and recorded under
its row number; a valid row is inserted.  Returns the final store and
`(total_rows, successful, errors)` for the rows processed from `row_num`
on. -/
def importRows (st : Store) (row_num : Nat) :
    List CsvRow → Store × Nat × Nat × List CSVImportError
  | [] => (st, 0, 0, [])
  | row :: rest =>
    if (rowErrors st row).isEmpty then
      let r := importRows (insertImportIssue st row) (row_num + 1) rest
      (r.1, r.2.1 + 1, r.2.2.1 + 1, r.2.2.2)
    else
      let r := importRows st (row_num + 1) rest
      (r.1, r.2.1 + 1, r.2.2.1,
       { row_number := row_num, errors := rowErrors st row } :: r.2.2.2)

/-- Service `IssueService.import_from_csv` on the decoded data rows (DictReader has
already consumed the header, so the first data row is numbered 2): run the
row loop, commit, and report `failed = len(errors)`. -/
def IssueService.import_from_csv (st : Store) (rows : List CsvRow) :
    Store × CSVImportResponse :=
  let (st1, total, succ, errs) := importRows st 2 rows
  (st1, { total_rows := total, successful := succ, failed := errs.length, errors := errs })

/-- A timeline event (`TimelineEvent` schema); the free-form `details`
dictionary and `user` payload are response decoration read by nothing in
the core, so the embedding keeps the `event_type` tag and the `timestamp`
the sort key uses. -/
structure TimelineEvent where
  event_type : String
  timestamp : Nat
deriving DecidableEq, Repr

/-- The sort key of `timeline.sort(key=lambda x: x.timestamp)`. -/
def eventLE (a b : TimelineEvent) : Prop :=
  a.timestamp ≤ b.timestamp

instance : DecidableRel eventLE := fun a b => Nat.decLe a.timestamp b.timestamp

instance : IsTotal TimelineEvent eventLE :=
  ⟨fun a b => Nat.le_total a.timestamp b.timestamp⟩

instance : IsTrans TimelineEvent eventLE :=
  ⟨fun _ _ _ => Nat.le_trans⟩

/-- Query `CommentRepository.get_by_issue_id`: comments of the issue ordered by
`created_at`. -/
def commentsForIssue (st : Store) (issue_id : Nat) : List Comment :=
  List.insertionSort (fun a b => a.created_at ≤ b.created_at)
    (st.comments.filter (fun c => c.issue_id == issue_id))

/-- The `issue.labels` relationship: labels joined through the
`issue_labels` association rows of this issue. -/
def labelsForIssue (st : Store) (issue_id : Nat) : List Label :=
  (st.issue_labels.filter (fun p => p.1 == issue_id)).filterMap
    (fun p => st.labels.find? (fun l => l.id == p.2))

/-- Service `TimelineService.get_issue_timeline`: one `created` event at
`created_at`; a `status_changed` event at `updated_at` iff
`updated_at > created_at`; one `comment_added` event per comment at its
`created_at`; one `label_added` event per currently associated label at the
`updated_at` of the issue; a `status_changed` event at `resolved_at` iff it is
set; the whole list sorted ascending by timestamp. -/
def TimelineService.get_issue_timeline (st : Store) (issue_id : Nat) :
    Except ServiceError (List TimelineEvent) :=
  match getIssue st issue_id with
  | none => .error .notFound
  | some issue =>
    let createdEvents : List TimelineEvent :=
      [{ event_type := "created", timestamp := issue.created_at }]
    let updatedEvents : List TimelineEvent :=
      if issue.created_at < issue.updated_at then
        [{ event_type := "status_changed", timestamp := issue.updated_at }]
      else []
    let commentEvents : List TimelineEvent :=
      (commentsForIssue st issue_id).map
        (fun c => { event_type := "comment_added", timestamp := c.created_at })
    let labelEvents : List TimelineEvent :=
      (labelsForIssue st issue_id).map
        (fun _ => { event_type := "label_added", timestamp := issue.updated_at })
    let resolvedEvents : List TimelineEvent :=
      match issue.resolved_at with
      | some t => [{ event_type := "status_changed", timestamp := t }]
      | none => []
    .ok (List.insertionSort eventLE
      (createdEvents ++ updatedEvents ++ commentEvents ++ labelEvents ++ resolvedEvents))

/-- The data-model invariant of the spec: `resolved_at` is non-null iff the
status is `resolved`. -/
def resolvedInvariant (issue : Issue) : Prop :=
  issue.resolved_at.isSome ↔ issue.status = IssueStatus.resolved

instance (issue : Issue) : Decidable (resolvedInvariant issue) := by
  unfold resolvedInvariant; infer_instance

/-! Helper lemmas -/

theorem applyPatch_resolved_at (issue : Issue) (d : IssueUpdate) :
    (applyPatch issue d).resolved_at = issue.resolved_at := rfl

theorem applyPatch_version (issue : Issue) (d : IssueUpdate) :
    (applyPatch issue d).version = issue.version := rfl

theorem applyPatch_status_some (issue : Issue) (d : IssueUpdate) (s : IssueStatus)
    (h : d.status = some s) : (applyPatch issue d).status = s := by
  simp [applyPatch, h]

theorem applyPatch_status_none (issue : Issue) (d : IssueUpdate)
    (h : d.status = none) : (applyPatch issue d).status = issue.status := by
  simp [applyPatch, h]

theorem repoUpdate_resolved_at (now : Nat) (issue : Issue) :
    (repoUpdate now issue).resolved_at = issue.resolved_at := rfl

theorem repoUpdate_status (now : Nat) (issue : Issue) :
    (repoUpdate now issue).status = issue.status := rfl

theorem repoUpdate_version (now : Nat) (issue : Issue) :
    (repoUpdate now issue).version = issue.version + 1 := rfl

theorem applyResolvedPolicy_version (now : Nat) (ps : Option IssueStatus) (issue : Issue) :
    (applyResolvedPolicy now ps issue).version = issue.version := by
  unfold applyResolvedPolicy; split_ifs <;> rfl

theorem applyResolvedPolicy_status (now : Nat) (ps : Option IssueStatus) (issue : Issue) :
    (applyResolvedPolicy now ps issue).status = issue.status := by
  unfold applyResolvedPolicy; split_ifs <;> rfl

theorem applyResolvedPolicy_none (now : Nat) (issue : Issue) :
    applyResolvedPolicy now none issue = issue := by
  unfold applyResolvedPolicy; simp

/-- Shape of a successful `update_issue`: the returned issue is the stored
issue with the patch, the resolved-timestamp policy and the repository
version bump applied, and the store holds exactly that row. -/
theorem update_issue_ok (st : Store) (issue_id : Nat) (d : IssueUpdate) (issue : Issue)
    (st' : Store) (i' : Issue)
    (hget : getIssue st issue_id = some issue)
    (hok : IssueService.update_issue st issue_id d = (st', .ok i')) :
    i' = repoUpdate st.now (applyResolvedPolicy st.now d.status (applyPatch issue d))
    ∧ st' = putIssue st i' := by
  simp only [IssueService.update_issue, hget] at hok
  by_cases h1 : issue.version ≠ d.version
  · rw [if_pos h1] at hok
    exact absurd (congrArg Prod.snd hok) (by simp)
  · rw [if_neg h1] at hok
    by_cases h2 : assigneeOk st d.assignee_id = false
    · rw [if_pos h2] at hok
      exact absurd (congrArg Prod.snd hok) (by simp)
    · rw [if_neg h2] at hok
      have h3 := congrArg Prod.snd hok
      have h4 := congrArg Prod.fst hok
      simp only [Except.ok.injEq] at h3
      simp only at h4
      subst h3
      exact ⟨rfl, h4.symm⟩

/-! Concrete states used by witnesses -/

/-- A concrete issue: open, version 1, no resolution timestamp. -/
def issueWitness : Issue :=
  { id := 1, title := "t", description := none, status := .open_, priority := .medium,
    version := 1, assignee_id := none, created_at := 10, updated_at := 10,
    resolved_at := none }

/-- A concrete store holding `issueWitness` and one user (id 7). -/
def stWitness : Store :=
  { issues := [issueWitness], users := [7], labels := [], issue_labels := [],
    comments := [], next_issue_id := 2, next_label_id := 1, now := 100 }

/-! Claims -/

/-- C1. For every issue and every patch: if the stored version differs
from the caller-supplied expected version, `update` fails with
VersionConflict and the store (hence every field of the issue, including
`version`) is unchanged; if the expected version equals the stored version
and the assignee precondition holds, the update succeeds and the resulting
version is exactly the old version plus 1. -/
theorem C1_update_version_conflict_and_increment
    (st : Store) (issue_id : Nat) (d : IssueUpdate) (issue : Issue)
    (hget : getIssue st issue_id = some issue) :
    (issue.version ≠ d.version →
      IssueService.update_issue st issue_id d = (st, .error .versionConflict))
    ∧ (issue.version = d.version → assigneeOk st d.assignee_id = true →
      ∃ st' i', IssueService.update_issue st issue_id d = (st', .ok i')
        ∧ i'.version = issue.version + 1) := by
  constructor
  · intro hne
    simp only [IssueService.update_issue, hget]
    rw [if_pos hne]
  · intro hv hass
    simp only [IssueService.update_issue, hget]
    rw [if_neg (by simp [hv]), if_neg (by simp [hass])]
    refine ⟨_, _, rfl, ?_⟩
    rw [repoUpdate_version, applyResolvedPolicy_version, applyPatch_version]

/-- Concrete instantiation of C1: a one-issue store, a conflicting patch
and a matching patch. -/
theorem C1_witness :
    (getIssue stWitness 1 = some issueWitness
      ∧ issueWitness.version ≠ ({ version := 5 } : IssueUpdate).version
      ∧ issueWitness.version = ({ version := 1 } : IssueUpdate).version
      ∧ assigneeOk stWitness ({ version := 1 } : IssueUpdate).assignee_id = true)
    ∧ IssueService.update_issue stWitness 1 { version := 5 }
        = (stWitness, .error .versionConflict)
    ∧ ∃ st' i', IssueService.update_issue stWitness 1 { version := 1 } = (st', .ok i')
        ∧ i'.version = issueWitness.version + 1 :=
  ⟨⟨rfl, by decide, by decide, by decide⟩,
   (C1_update_version_conflict_and_increment stWitness 1 { version := 5 } issueWitness
      rfl).1 (by decide),
   (C1_update_version_conflict_and_increment stWitness 1 { version := 1 } issueWitness
      rfl).2 (by decide) (by decide)⟩

/-- C4. For every successful update, evaluated after the status
change of the patch is applied: if the new status is `resolved` and
`resolved_at` was previously null, `resolved_at` is set to the current
time; if the new status is anything other than `resolved`,
`resolved_at` is cleared to null, including when it was already null. -/
theorem C4_resolved_timestamp_policy
    (st : Store) (issue_id : Nat) (d : IssueUpdate) (issue : Issue)
    (st' : Store) (i' : Issue)
    (hget : getIssue st issue_id = some issue)
    (hok : IssueService.update_issue st issue_id d = (st', .ok i')) :
    (d.status = some IssueStatus.resolved → issue.resolved_at = none →
      i'.resolved_at = some st.now)
    ∧ (∀ s, d.status = some s → s ≠ IssueStatus.resolved → i'.resolved_at = none) := by
  obtain ⟨hi, -⟩ := update_issue_ok st issue_id d issue st' i' hget hok
  subst hi
  constructor
  · intro hs hra
    rw [repoUpdate_resolved_at]
    unfold applyResolvedPolicy
    rw [if_pos ⟨hs, by rw [applyPatch_resolved_at]; exact hra⟩]
  · intro s hs hne
    rw [repoUpdate_resolved_at]
    unfold applyResolvedPolicy
    by_cases h : d.status = some IssueStatus.resolved ∧ (applyPatch issue d).resolved_at = none
    · exfalso
      rw [hs] at h
      exact hne (Option.some.inj h.1)
    · rw [if_neg h, if_pos ⟨by simp [hs], by simp [hs, hne]⟩]

/-- The patch setting the status to `resolved` at expected version 1. -/
def dResolvedW : IssueUpdate := { status := some .resolved, version := 1 }

/-- The issue `issueWitness` becomes under `dResolvedW` at clock 100. -/
def issueResolvedW : Issue :=
  { issueWitness with
    status := .resolved
    version := 2
    updated_at := 100
    resolved_at := some 100 }

/-- The store after that update. -/
def stResolvedW : Store := { stWitness with issues := [issueResolvedW] }

/-- Concrete instantiation of C4: resolving `issueWitness` stamps
`resolved_at` with the clock. -/
theorem C4_witness :
    (getIssue stWitness 1 = some issueWitness
      ∧ IssueService.update_issue stWitness 1 dResolvedW = (stResolvedW, .ok issueResolvedW))
    ∧ ((dResolvedW.status = some IssueStatus.resolved → issueWitness.resolved_at = none →
        issueResolvedW.resolved_at = some stWitness.now)
      ∧ (∀ s, dResolvedW.status = some s → s ≠ IssueStatus.resolved →
        issueResolvedW.resolved_at = none)) :=
  ⟨⟨rfl, by decide⟩,
   C4_resolved_timestamp_policy stWitness 1 dResolvedW issueWitness stResolvedW
     issueResolvedW rfl (by decide)⟩

/-- C10. For every successful update whose patch does not contain a
status field at all, the `resolved_at` of the issue is left exactly as it was
before the update — neither set nor cleared — regardless of the current
status of the issue. -/
theorem C10_no_status_patch_preserves_resolved_at
    (st : Store) (issue_id : Nat) (d : IssueUpdate) (issue : Issue)
    (st' : Store) (i' : Issue)
    (hget : getIssue st issue_id = some issue)
    (hstatus : d.status = none)
    (hok : IssueService.update_issue st issue_id d = (st', .ok i')) :
    i'.resolved_at = issue.resolved_at := by
  obtain ⟨hi, -⟩ := update_issue_ok st issue_id d issue st' i' hget hok
  subst hi
  rw [repoUpdate_resolved_at, hstatus, applyResolvedPolicy_none, applyPatch_resolved_at]

/-- The patch renaming the issue, leaving the status unset. -/
def dTitleW : IssueUpdate := { title := some "renamed", version := 1 }

/-- The issue `issueWitness` becomes under `dTitleW` at clock 100. -/
def issueTitleW : Issue :=
  { issueWitness with title := "renamed", version := 2, updated_at := 100 }

/-- The store after that update. -/
def stTitleW : Store := { stWitness with issues := [issueTitleW] }

/-- Concrete instantiation of C10: a title-only patch leaves `resolved_at`
as it was. -/
theorem C10_witness :
    (getIssue stWitness 1 = some issueWitness
      ∧ dTitleW.status = none
      ∧ IssueService.update_issue stWitness 1 dTitleW = (stTitleW, .ok issueTitleW))
    ∧ issueTitleW.resolved_at = issueWitness.resolved_at :=
  ⟨⟨rfl, rfl, by decide⟩,
   C10_no_status_patch_preserves_resolved_at stWitness 1 dTitleW issueWitness stTitleW
     issueTitleW rfl rfl (by decide)⟩

theorem bulkApply_id (now : Nat) (status : IssueStatus) (issue : Issue) :
    (bulkApply now status issue).id = issue.id := by
  simp only [bulkApply]
  split_ifs <;> rfl

theorem bulkApply_version (now : Nat) (status : IssueStatus) (issue : Issue) :
    (bulkApply now status issue).version = issue.version + 1 := by
  simp only [bulkApply]
  split_ifs <;> rfl

/-- The bulk mutation re-establishes the resolution invariant whatever the
input row looked like. -/
theorem bulkApply_resolvedInvariant (now : Nat) (status : IssueStatus) (issue : Issue) :
    resolvedInvariant (bulkApply now status issue) := by
  simp only [bulkApply, resolvedInvariant]
  by_cases h : status = IssueStatus.resolved
  · subst h
    by_cases h2 : issue.resolved_at = none
    · rw [if_pos ⟨rfl, h2⟩]
      simp
    · rw [if_neg (fun hc => h2 hc.2), if_neg (by simp)]
      simp [Option.isSome_iff_ne_none, h2]
  · rw [if_neg (fun hc => h hc.1), if_pos h]
    simp [h]

/-- A successful service-level bulk update comes from a successful
repository call on the same store. -/
theorem bulk_service_ok (st : Store) (ids : List Nat) (status : IssueStatus)
    (st' : Store) (n : Nat)
    (hok : IssueService.bulk_update_status st ids status = (st', .ok n)) :
    IssueRepository.bulk_update_status st ids status = .ok (st', n) := by
  unfold IssueService.bulk_update_status at hok
  cases hrepo : IssueRepository.bulk_update_status st ids status with
  | ok p =>
    obtain ⟨st1, k⟩ := p
    rw [hrepo] at hok
    simp only [Prod.mk.injEq, Except.ok.injEq] at hok
    rw [hok.1, hok.2]
  | error e =>
    rw [hrepo] at hok
    exact absurd (congrArg Prod.snd hok) (by simp)

/-- Shape of a successful repository bulk update. -/
theorem bulk_repo_ok (st : Store) (ids : List Nat) (status : IssueStatus)
    (st1 : Store) (n : Nat)
    (hok : IssueRepository.bulk_update_status st ids status = .ok (st1, n)) :
    (st.issues.filter (fun i => ids.contains i.id)).length = ids.length
    ∧ n = ids.length
    ∧ st1 = { st with issues := bulkMutate st ids status } := by
  simp only [IssueRepository.bulk_update_status] at hok
  by_cases h : (st.issues.filter (fun i => ids.contains i.id)).length = ids.length
  · rw [if_neg (not_ne_iff.mpr h)] at hok
    simp only [Except.ok.injEq, Prod.mk.injEq] at hok
    exact ⟨h, by rw [← hok.2, h], hok.1.symm⟩
  · rw [if_pos h] at hok
    exact Except.noConfusion hok

/-- When some id has no issue row, strictly fewer rows match than ids were
given (issue ids being unique), so the length guard fires. -/
theorem filter_length_lt_of_missing (st : Store) (ids : List Nat) (m : Nat)
    (hnodup : (st.issues.map Issue.id).Nodup)
    (hm : m ∈ ids) (hmiss : getIssue st m = none) :
    (st.issues.filter (fun i => ids.contains i.id)).length < ids.length := by
  classical
  have hnd : ((st.issues.filter (fun i => ids.contains i.id)).map Issue.id).Nodup :=
    List.Nodup.sublist
      (List.Sublist.map Issue.id (List.filter_sublist st.issues)) hnodup
  have hmem : ∀ x ∈ (st.issues.filter (fun i => ids.contains i.id)).map Issue.id,
      x ∈ ids ∧ x ≠ m := by
    intro x hx
    obtain ⟨i, hi, rfl⟩ := List.mem_map.mp hx
    obtain ⟨hist, hcont⟩ := List.mem_filter.mp hi
    refine ⟨by simpa using hcont, ?_⟩
    have := List.find?_eq_none.mp hmiss i hist
    simpa using this
  have hfin : ((st.issues.filter (fun i => ids.contains i.id)).map Issue.id).toFinset
      ⊆ ids.toFinset.erase m := by
    intro x hx
    rw [List.mem_toFinset] at hx
    obtain ⟨hxm, hxne⟩ := hmem x hx
    exact Finset.mem_erase.mpr ⟨hxne, List.mem_toFinset.mpr hxm⟩
  calc (st.issues.filter (fun i => ids.contains i.id)).length
      = ((st.issues.filter (fun i => ids.contains i.id)).map Issue.id).length :=
        (List.length_map _ _).symm
    _ = ((st.issues.filter (fun i => ids.contains i.id)).map Issue.id).toFinset.card :=
        (List.toFinset_card_of_nodup hnd).symm
    _ ≤ (ids.toFinset.erase m).card := Finset.card_le_card hfin
    _ < ids.toFinset.card := Finset.card_erase_lt_of_mem (List.mem_toFinset.mpr hm)
    _ ≤ ids.length := ids.toFinset_card_le

/-- Finding by id commutes with mapping an id-preserving function. -/
theorem find?_map_id_preserving (g : Issue → Issue) (hg : ∀ i, (g i).id = i.id)
    (m : Nat) : ∀ l : List Issue,
    (l.map g).find? (fun i => i.id == m) = (l.find? (fun i => i.id == m)).map g := by
  intro l
  induction l with
  | nil => rfl
  | cons a t ih =>
    cases h : a.id == m with
    | true => simp [List.find?_cons, hg, h]
    | false => simp [List.find?_cons, hg, h, ih]

/-- C2. For every list of ids: if any id has no issue, bulk update fails
(NotFound kind) and the store is returned unchanged — zero issues mutated;
on success the count equals `len(ids)` and every listed issue has been
mutated by the bulk transition. -/
theorem C2_bulk_all_or_nothing (st : Store) (ids : List Nat) (status : IssueStatus)
    (hnodup : (st.issues.map Issue.id).Nodup) :
    ((∃ m ∈ ids, getIssue st m = none) →
      IssueService.bulk_update_status st ids status = (st, .error .notFound))
    ∧ (∀ st' n, IssueService.bulk_update_status st ids status = (st', .ok n) →
      n = ids.length
      ∧ ∀ m ∈ ids, ∀ i, getIssue st m = some i →
          getIssue st' m = some (bulkApply st.now status i)) := by
  constructor
  · rintro ⟨m, hm, hmiss⟩
    have hlt := filter_length_lt_of_missing st ids m hnodup hm hmiss
    simp only [IssueService.bulk_update_status, IssueRepository.bulk_update_status]
    rw [if_pos (Nat.ne_of_lt hlt)]
  · intro st' n hok
    obtain ⟨hlen, hn, hst⟩ := bulk_repo_ok st ids status st' n (bulk_service_ok _ _ _ _ _ hok)
    refine ⟨hn, ?_⟩
    intro m hm i hi
    subst hst
    have hidm : i.id = m := by simpa using List.find?_some hi
    have hcont : ids.contains i.id = true := by
      rw [hidm]; simpa using hm
    have hgid : ∀ j : Issue,
        ((fun i => if ids.contains i.id then bulkApply st.now status i else i) j).id
          = j.id := by
      intro j
      show (if ids.contains j.id = true then bulkApply st.now status j else j).id = j.id
      by_cases h : ids.contains j.id = true
      · rw [if_pos h]; exact bulkApply_id _ _ _
      · rw [if_neg h]
    have hmemi : i.id ∈ ids := by rw [hidm]; exact hm
    simp only [getIssue, bulkMutate] at hi ⊢
    rw [find?_map_id_preserving _ hgid m st.issues, hi]
    simp [hmemi]

/-- Concrete instantiation of C2: ids `[1, 2]` where issue 2 does not
exist fail without mutation; ids `[1]` succeed with count 1. -/
theorem C2_witness :
    ((stWitness.issues.map Issue.id).Nodup
      ∧ (∃ m ∈ [1, 2], getIssue stWitness m = none))
    ∧ IssueService.bulk_update_status stWitness [1, 2] .closed
        = (stWitness, .error .notFound) :=
  ⟨⟨by decide, ⟨2, by decide, rfl⟩⟩,
   (C2_bulk_all_or_nothing stWitness [1, 2] .closed (by decide)).1 ⟨2, by decide, rfl⟩⟩

/-- A successful single update preserves the resolution invariant. -/
theorem update_result_invariant (now : Nat) (d : IssueUpdate) (issue : Issue)
    (hinv : resolvedInvariant issue) :
    resolvedInvariant (repoUpdate now (applyResolvedPolicy now d.status (applyPatch issue d))) := by
  unfold resolvedInvariant at hinv ⊢
  rw [repoUpdate_resolved_at, repoUpdate_status]
  cases hs : d.status with
  | none =>
    rw [applyResolvedPolicy_none, applyPatch_resolved_at, applyPatch_status_none issue d hs]
    exact hinv
  | some s =>
    by_cases hres : s = IssueStatus.resolved
    · subst hres
      by_cases hra : issue.resolved_at = none
      · unfold applyResolvedPolicy
        rw [if_pos ⟨rfl, by rw [applyPatch_resolved_at]; exact hra⟩]
        simp [applyPatch_status_some issue d _ hs]
      · unfold applyResolvedPolicy
        rw [if_neg (fun hc => hra (by rw [← applyPatch_resolved_at issue d]; exact hc.2)),
          if_neg (by simp)]
        rw [applyPatch_resolved_at, applyPatch_status_some issue d _ hs]
        simp [Option.isSome_iff_ne_none, hra]
    · unfold applyResolvedPolicy
      rw [if_neg (fun hc => hres (Option.some.inj hc.1)),
        if_pos ⟨by simp, by simp [hres]⟩]
      simp [applyPatch_status_some issue d _ hs, hres]

/-- The one-row CSV whose row carries `status=resolved` directly. -/
def resolvedRowW : CsvRow :=
  { title := "t", description := "", status := "resolved", priority := "", assignee_id := "" }

/-- An empty store at clock 100. -/
def stEmptyW : Store :=
  { issues := [], users := [], labels := [], issue_labels := [], comments := [],
    next_issue_id := 1, next_label_id := 1, now := 100 }

/-- C3. Every state satisfying `resolved_at ≠ null ⇔ status = resolved`
still satisfies it after any successful single update and after any
successful bulk status transition; the invariant is **not** guaranteed for
issues created via batch import with `status=resolved` supplied in the row
(witnessed by a one-row import producing a resolved issue with null
`resolved_at`). -/
theorem C3_resolved_invariant_preservation
    (st : Store) (issue_id : Nat) (d : IssueUpdate) (issue : Issue)
    (st2 : Store) (ids : List Nat) (status : IssueStatus) :
    (∀ st' i', getIssue st issue_id = some issue → resolvedInvariant issue →
      IssueService.update_issue st issue_id d = (st', .ok i') → resolvedInvariant i')
    ∧ (∀ st2' n, (∀ i ∈ st2.issues, resolvedInvariant i) →
      IssueService.bulk_update_status st2 ids status = (st2', .ok n) →
      ∀ i ∈ st2'.issues, resolvedInvariant i)
    ∧ (∃ i, (IssueService.import_from_csv stEmptyW [resolvedRowW]).1.issues = [i]
        ∧ ¬ resolvedInvariant i) := by
  refine ⟨?_, ?_, ?_⟩
  · intro st' i' hget hinv hok
    obtain ⟨hi, -⟩ := update_issue_ok st issue_id d issue st' i' hget hok
    subst hi
    exact update_result_invariant st.now d issue hinv
  · intro st2' n hall hok
    obtain ⟨-, -, hst⟩ := bulk_repo_ok st2 ids status st2' n (bulk_service_ok _ _ _ _ _ hok)
    subst hst
    intro i hi
    simp only [bulkMutate] at hi
    obtain ⟨j, hj, rfl⟩ := List.mem_map.mp hi
    show resolvedInvariant (if ids.contains j.id = true then bulkApply st2.now status j else j)
    by_cases h : ids.contains j.id = true
    · rw [if_pos h]
      exact bulkApply_resolvedInvariant _ _ _
    · rw [if_neg h]
      exact hall j hj
  · exact ⟨mkImportIssue stEmptyW resolvedRowW, by decide, by decide⟩

/-- Concrete instantiation of C3: resolving `issueWitness` by single update
and by bulk transition keeps the invariant. -/
theorem C3_witness :
    (getIssue stWitness 1 = some issueWitness
      ∧ resolvedInvariant issueWitness
      ∧ IssueService.update_issue stWitness 1 dResolvedW = (stResolvedW, .ok issueResolvedW)
      ∧ (∀ i ∈ stWitness.issues, resolvedInvariant i)
      ∧ IssueService.bulk_update_status stWitness [1] .resolved = (stResolvedW, .ok 1))
    ∧ resolvedInvariant issueResolvedW
    ∧ (∀ i ∈ stResolvedW.issues, resolvedInvariant i) :=
  ⟨⟨rfl, by decide, by decide, by decide, by decide⟩,
   (C3_resolved_invariant_preservation stWitness 1 dResolvedW issueWitness stWitness
      [1] .resolved).1 stResolvedW issueResolvedW rfl (by decide) (by decide),
   (C3_resolved_invariant_preservation stWitness 1 dResolvedW issueWitness stWitness
      [1] .resolved).2.1 stResolvedW 1 (by decide) (by decide)⟩

/-- The five data rows of the C5 scenario: the second data row (file line
3) has an unparsable status value, all other rows are valid. -/
def rows5W : List CsvRow :=
  [ { title := "Issue A", description := "", status := "open", priority := "",
      assignee_id := "" },
    { title := "Issue B", description := "", status := "BANANA", priority := "",
      assignee_id := "" },
    { title := "Issue C", description := "", status := "", priority := "high",
      assignee_id := "" },
    { title := "Issue D", description := "", status := "resolved", priority := "low",
      assignee_id := "" },
    { title := "Issue E", description := "d", status := "closed", priority := "critical",
      assignee_id := "" } ]

/-- C5, counterexample. As stated the claim is false: the import does
report `totalRows=5, successful=4, failed=1`, but the single error entry
carries `row_number = 3`, not 4 — the loop numbers rows from 2 (header is
row 1, first data row is row 2), so the second data row is row 3. -/
theorem C5_counterexample_row_number :
    ¬ ((IssueService.import_from_csv stEmptyW rows5W).2.total_rows = 5
      ∧ (IssueService.import_from_csv stEmptyW rows5W).2.successful = 4
      ∧ (IssueService.import_from_csv stEmptyW rows5W).2.failed = 1
      ∧ (IssueService.import_from_csv stEmptyW rows5W).2.errors.map CSVImportError.row_number
          = [4]) := by decide

/-- C5, amended. For the 5-row CSV whose second data row has an
unparsable status, the result is `totalRows=5, successful=4, failed=1` and
the single per-row error entry has `row_number = 3`. -/
theorem C5_amended_row_number_three :
    (IssueService.import_from_csv stEmptyW rows5W).2
      = { total_rows := 5, successful := 4, failed := 1,
          errors := [{ row_number := 3, errors := ["Invalid status: BANANA"] }] } := by
  decide

/-- Every issue present after the import row loop was either already in the
store or is a fresh row with `version = 1` and `resolved_at = null`. -/
theorem importRows_new_version_one (rows : List CsvRow) :
    ∀ st rn, ∀ i ∈ (importRows st rn rows).1.issues,
      i ∈ st.issues ∨ (i.version = 1 ∧ i.resolved_at = none) := by
  induction rows with
  | nil =>
    intro st rn i hi
    exact .inl hi
  | cons row rest ih =>
    intro st rn i hi
    simp only [importRows] at hi
    by_cases h : (rowErrors st row).isEmpty = true
    · rw [if_pos h] at hi
      rcases ih (insertImportIssue st row) (rn + 1) i hi with hmem | hv
      · simp only [insertImportIssue] at hmem
        rcases List.mem_append.mp hmem with h1 | h2
        · exact .inl h1
        · right
          rcases List.mem_singleton.mp h2 with rfl
          exact ⟨rfl, rfl⟩
      · exact .inr hv
    · rw [if_neg h] at hi
      exact ih st (rn + 1) i hi

/-- C6. Every issue created by batch import has `version = 1` and does
not pass through the resolved-timestamp policy: in particular a valid row
specifying `status=resolved` produces an issue whose `resolved_at` is
null. -/
theorem C6_import_version_one_resolved_null (st : Store) (rows : List CsvRow) :
    (∀ i ∈ (IssueService.import_from_csv st rows).1.issues,
      i ∈ st.issues ∨ (i.version = 1 ∧ i.resolved_at = none))
    ∧ ((IssueService.import_from_csv stEmptyW [resolvedRowW]).1.issues
        = [mkImportIssue stEmptyW resolvedRowW]
      ∧ (mkImportIssue stEmptyW resolvedRowW).status = IssueStatus.resolved
      ∧ (mkImportIssue stEmptyW resolvedRowW).resolved_at = none
      ∧ (mkImportIssue stEmptyW resolvedRowW).version = 1) := by
  constructor
  · intro i hi
    exact importRows_new_version_one rows st 2 i
      (by simpa [IssueService.import_from_csv] using hi)
  · exact ⟨by decide, by decide, by decide, by decide⟩

/-- Concrete instantiation of C6: the issue imported from the
`status=resolved` row is a member of the resulting store and has
`version = 1` and null `resolved_at`. -/
theorem C6_witness :
    (mkImportIssue stEmptyW resolvedRowW
      ∈ (IssueService.import_from_csv stEmptyW [resolvedRowW]).1.issues)
    ∧ (mkImportIssue stEmptyW resolvedRowW ∈ stEmptyW.issues
      ∨ ((mkImportIssue stEmptyW resolvedRowW).version = 1
          ∧ (mkImportIssue stEmptyW resolvedRowW).resolved_at = none)) :=
  ⟨by decide,
   (C6_import_version_one_resolved_null stEmptyW [resolvedRowW]).1 _ (by decide)⟩

theorem get_or_create_find (st : Store) (name : String) :
    get_by_name (get_or_create st name).1 name = some (get_or_create st name).2 := by
  unfold get_or_create
  cases h : get_by_name st name with
  | some l => simpa using h
  | none =>
    simp only []
    unfold get_by_name at h ⊢
    rw [List.find?_append, h, Option.none_or]
    simp [List.find?]

theorem get_or_create_frame (st : Store) (name : String) :
    (get_or_create st name).1.issues = st.issues
    ∧ (get_or_create st name).1.users = st.users
    ∧ (get_or_create st name).1.issue_labels = st.issue_labels
    ∧ (get_or_create st name).1.comments = st.comments := by
  unfold get_or_create
  cases get_by_name st name <;> exact ⟨rfl, rfl, rfl, rfl⟩

theorem get_or_create_labels_extend (st : Store) (name : String) :
    ∃ created, (get_or_create st name).1.labels = st.labels ++ created := by
  unfold get_or_create
  cases get_by_name st name with
  | some l => exact ⟨[], (List.append_nil _).symm⟩
  | none => exact ⟨[_], rfl⟩

theorem get_or_create_set_assoc (st : Store) (name : String) (X : List (Nat × Nat)) :
    get_or_create { st with issue_labels := X } name
      = ({ (get_or_create st name).1 with issue_labels := X },
         (get_or_create st name).2) := by
  unfold get_or_create get_by_name
  cases h : st.labels.find? (fun l => l.name == name) <;> simp [h]

theorem resolveLabels_frame (names : List String) : ∀ st : Store,
    (resolveLabels st names).1.issues = st.issues
    ∧ (resolveLabels st names).1.users = st.users
    ∧ (resolveLabels st names).1.issue_labels = st.issue_labels
    ∧ (resolveLabels st names).1.comments = st.comments := by
  induction names with
  | nil => intro st; exact ⟨rfl, rfl, rfl, rfl⟩
  | cons name rest ih =>
    intro st
    simp only [resolveLabels]
    obtain ⟨h1, h2, h3, h4⟩ := ih (get_or_create st name).1
    obtain ⟨g1, g2, g3, g4⟩ := get_or_create_frame st name
    exact ⟨h1.trans g1, h2.trans g2, h3.trans g3, h4.trans g4⟩

theorem resolveLabels_labels_extend (names : List String) : ∀ st : Store,
    ∃ created, (resolveLabels st names).1.labels = st.labels ++ created := by
  induction names with
  | nil => intro st; exact ⟨[], (List.append_nil _).symm⟩
  | cons name rest ih =>
    intro st
    simp only [resolveLabels]
    obtain ⟨c1, hc1⟩ := get_or_create_labels_extend st name
    obtain ⟨c2, hc2⟩ := ih (get_or_create st name).1
    exact ⟨c1 ++ c2, by rw [hc2, hc1, List.append_assoc]⟩

/-- A hit in `get_or_create` returns the found label and leaves the store
alone. -/
theorem get_or_create_found (s : Store) (name : String) (l : Label)
    (h : get_by_name s name = some l) : get_or_create s name = (s, l) := by
  unfold get_or_create
  rw [h]

/-- A label found by name is still found after the label table is extended
on the right. -/
theorem get_by_name_extend (st st2 : Store) (name : String) (l : Label)
    (h : get_by_name st name = some l)
    (hext : ∃ created, st2.labels = st.labels ++ created) :
    get_by_name st2 name = some l := by
  obtain ⟨c, hc⟩ := hext
  unfold get_by_name at h ⊢
  rw [hc, List.find?_append, h]
  rfl

/-- Resolving the same names a second time finds every label created by the
first pass and creates nothing: the whole result is unchanged. -/
theorem resolveLabels_idem (names : List String) : ∀ st : Store,
    resolveLabels (resolveLabels st names).1 names = resolveLabels st names := by
  induction names with
  | nil => intro st; rfl
  | cons name rest ih =>
    intro st
    have hfind : get_by_name (resolveLabels (get_or_create st name).1 rest).1 name
        = some (get_or_create st name).2 :=
      get_by_name_extend _ _ name _ (get_or_create_find st name)
        (resolveLabels_labels_extend rest (get_or_create st name).1)
    have hgc : get_or_create (resolveLabels (get_or_create st name).1 rest).1 name
        = ((resolveLabels (get_or_create st name).1 rest).1,
           (get_or_create st name).2) :=
      get_or_create_found _ name _ hfind
    simp only [resolveLabels]
    rw [hgc]
    simp only []
    rw [ih (get_or_create st name).1]

/-- The resolution loop neither reads nor depends on the association table:
overriding it commutes with resolution. -/
theorem resolveLabels_set_assoc (names : List String) :
    ∀ (st : Store) (X : List (Nat × Nat)),
    resolveLabels { st with issue_labels := X } names
      = ({ (resolveLabels st names).1 with issue_labels := X },
         (resolveLabels st names).2) := by
  induction names with
  | nil => intro st X; rfl
  | cons name rest ih =>
    intro st X
    simp only [resolveLabels]
    rw [get_or_create_set_assoc st name X]
    simp only []
    rw [ih (get_or_create st name).1 X]

/-- Label-name uniqueness is preserved: a create only happens for a name
that is absent from the table. -/
theorem resolveLabels_nodup (names : List String) : ∀ st : Store,
    (st.labels.map Label.name).Nodup →
    ((resolveLabels st names).1.labels.map Label.name).Nodup := by
  induction names with
  | nil => intro st h; exact h
  | cons name rest ih =>
    intro st h
    simp only [resolveLabels]
    apply ih
    unfold get_or_create
    cases hf : get_by_name st name with
    | some l => exact h
    | none =>
      dsimp only
      rw [List.map_append, List.nodup_append]
      refine ⟨h, List.nodup_singleton _, ?_⟩
      intro x hx hx2
      obtain ⟨lab, hlab, rfl⟩ := List.mem_map.mp hx
      have := List.find?_eq_none.mp hf lab hlab
      simp only [List.map_cons, List.map_nil, List.mem_singleton] at hx2
      exact this (by simp [hx2])

/-- Filtering the replaced association table by "not this issue" returns
exactly the rows of the other issues. -/
theorem assoc_filter_round (base : List (Nat × Nat)) (ls : List Label) (issue_id : Nat) :
    ((base.filter (fun p => ¬ p.1 = issue_id)
        ++ ls.map (fun l => (issue_id, l.id))).filter (fun p => ¬ p.1 = issue_id))
      = base.filter (fun p => ¬ p.1 = issue_id) := by
  rw [List.filter_append]
  have h1 : (base.filter (fun p => ¬ p.1 = issue_id)).filter (fun p => ¬ p.1 = issue_id)
      = base.filter (fun p => ¬ p.1 = issue_id) :=
    List.filter_eq_self.mpr (fun a ha => (List.mem_filter.mp ha).2)
  have h2 : (ls.map (fun l => (issue_id, l.id))).filter (fun p => ¬ p.1 = issue_id)
      = [] := by
    rw [List.filter_eq_nil_iff]
    intro p hp
    obtain ⟨l, hl, rfl⟩ := List.mem_map.mp hp
    simp
  rw [h1, h2, List.append_nil]

/-- Repository-level idempotence of label replacement. -/
theorem replace_issue_labels_idem (st : Store) (issue_id : Nat) (names : List String) :
    LabelRepository.replace_issue_labels
        (LabelRepository.replace_issue_labels st issue_id names) issue_id names
      = LabelRepository.replace_issue_labels st issue_id names := by
  simp only [LabelRepository.replace_issue_labels]
  rw [resolveLabels_set_assoc names (resolveLabels st names).1]
  simp only []
  rw [resolveLabels_idem names st]
  rw [assoc_filter_round (resolveLabels st names).1.issue_labels (resolveLabels st names).2
    issue_id]

/-- Label replacement does not touch the issues table. -/
theorem replace_issue_labels_issues (st : Store) (issue_id : Nat) (names : List String) :
    (LabelRepository.replace_issue_labels st issue_id names).issues = st.issues := by
  simp only [LabelRepository.replace_issue_labels]
  exact (resolveLabels_frame names st).1

/-- The label table after replacement. -/
theorem replace_issue_labels_labels (st : Store) (issue_id : Nat) (names : List String) :
    (LabelRepository.replace_issue_labels st issue_id names).labels
      = (resolveLabels st names).1.labels := rfl

/-- On an existing issue the service call performs the repository
replacement and reports success. -/
theorem replace_labels_service_eq (st : Store) (issue_id : Nat) (names : List String)
    (issue : Issue) (hget : getIssue st issue_id = some issue) :
    IssueService.replace_labels st issue_id names
      = (LabelRepository.replace_issue_labels st issue_id names, .ok ()) := by
  simp only [IssueService.replace_labels, hget]

/-- C7. `replaceLabels` is idempotent: for every issue and every
duplicate-free name set, the second call leaves the store exactly as the
first left it (same association set, no Label entity created twice for the
same name); the first call only appends fresh Label rows — the existing
ones are not altered — and the label table keeps its unique names. -/
theorem C7_replace_labels_idempotent (st : Store) (issue_id : Nat)
    (names : List String) (issue : Issue)
    (_hnd : names.Nodup)
    (hlbl : (st.labels.map Label.name).Nodup)
    (hget : getIssue st issue_id = some issue) :
    (IssueService.replace_labels (IssueService.replace_labels st issue_id names).1
        issue_id names).1
      = (IssueService.replace_labels st issue_id names).1
    ∧ (∃ created, (IssueService.replace_labels st issue_id names).1.labels
        = st.labels ++ created)
    ∧ ((IssueService.replace_labels st issue_id names).1.labels.map Label.name).Nodup := by
  have h1 : getIssue (LabelRepository.replace_issue_labels st issue_id names) issue_id
      = some issue := by
    unfold getIssue
    rw [replace_issue_labels_issues]
    exact hget
  rw [replace_labels_service_eq st issue_id names issue hget]
  simp only []
  rw [replace_labels_service_eq _ issue_id names issue h1]
  refine ⟨replace_issue_labels_idem st issue_id names, ?_, ?_⟩
  · rw [replace_issue_labels_labels]
    exact resolveLabels_labels_extend names st
  · rw [replace_issue_labels_labels]
    exact resolveLabels_nodup names st hlbl

/-- Concrete instantiation of C7: replacing the labels of `issueWitness`
with `bug, ui` twice equals doing it once. -/
theorem C7_witness :
    (["bug", "ui"].Nodup
      ∧ (stWitness.labels.map Label.name).Nodup
      ∧ getIssue stWitness 1 = some issueWitness)
    ∧ (IssueService.replace_labels (IssueService.replace_labels stWitness 1
          ["bug", "ui"]).1 1 ["bug", "ui"]).1
        = (IssueService.replace_labels stWitness 1 ["bug", "ui"]).1
    ∧ (∃ created, (IssueService.replace_labels stWitness 1 ["bug", "ui"]).1.labels
        = stWitness.labels ++ created)
    ∧ ((IssueService.replace_labels stWitness 1 ["bug", "ui"]).1.labels.map
        Label.name).Nodup :=
  ⟨⟨by decide, by decide, rfl⟩,
   C7_replace_labels_idempotent stWitness 1 ["bug", "ui"] issueWitness
     (by decide) (by decide) rfl⟩

/-- C8. For every existing issue and every name set, a successful
`replaceLabels` call leaves the `version` field of the issue unchanged: label
replacement is not a versioned field mutation. -/
theorem C8_replace_labels_preserves_version (st : Store) (issue_id : Nat)
    (names : List String) (issue : Issue)
    (hget : getIssue st issue_id = some issue) :
    (IssueService.replace_labels st issue_id names).2 = .ok ()
    ∧ ∃ i2, getIssue (IssueService.replace_labels st issue_id names).1 issue_id = some i2
        ∧ i2.version = issue.version := by
  rw [replace_labels_service_eq st issue_id names issue hget]
  refine ⟨rfl, issue, ?_, rfl⟩
  unfold getIssue
  rw [replace_issue_labels_issues]
  exact hget

/-- Concrete instantiation of C8: after replacing the labels of
`issueWitness`, its stored version is still 1. -/
theorem C8_witness :
    getIssue stWitness 1 = some issueWitness
    ∧ (IssueService.replace_labels stWitness 1 ["bug"]).2 = .ok ()
    ∧ ∃ i2, getIssue (IssueService.replace_labels stWitness 1 ["bug"]).1 1 = some i2
        ∧ i2.version = issueWitness.version :=
  ⟨rfl,
   (C8_replace_labels_preserves_version stWitness 1 ["bug"] issueWitness rfl).1,
   (C8_replace_labels_preserves_version stWitness 1 ["bug"] issueWitness rfl).2⟩

/-- A comment delivered by `commentsForIssue` is a stored comment of that
issue. -/
theorem commentsForIssue_mem (st : Store) (issue_id : Nat) (c : Comment)
    (hc : c ∈ commentsForIssue st issue_id) :
    c ∈ st.comments ∧ c.issue_id = issue_id := by
  unfold commentsForIssue at hc
  have h1 := (List.perm_insertionSort _ _).mem_iff.mp hc
  have h2 := List.mem_filter.mp h1
  exact ⟨h2.1, by simpa using h2.2⟩

/-- C9. For every existing issue whose derived timestamps are no
earlier than creation (as every operation stamps them after the issue is
created), the timeline is sorted non-decreasing by timestamp, contains the
`created` event at `created_at`, and that timestamp is the minimum of the
list. -/
theorem C9_timeline_sorted_created_min (st : Store) (issue_id : Nat) (issue : Issue)
    (hget : getIssue st issue_id = some issue)
    (hupd : issue.created_at ≤ issue.updated_at)
    (hres : ∀ t, issue.resolved_at = some t → issue.created_at ≤ t)
    (hcom : ∀ c ∈ st.comments, c.issue_id = issue_id → issue.created_at ≤ c.created_at) :
    ∃ evs, TimelineService.get_issue_timeline st issue_id = .ok evs
      ∧ List.Sorted eventLE evs
      ∧ (∃ e ∈ evs, e.event_type = "created" ∧ e.timestamp = issue.created_at)
      ∧ ∀ e ∈ evs, issue.created_at ≤ e.timestamp := by
  simp only [TimelineService.get_issue_timeline, hget]
  refine ⟨_, rfl, List.sorted_insertionSort eventLE _, ?_, ?_⟩
  · refine ⟨{ event_type := "created", timestamp := issue.created_at }, ?_, rfl, rfl⟩
    rw [(List.perm_insertionSort eventLE _).mem_iff]
    simp
  · intro e he
    rw [(List.perm_insertionSort eventLE _).mem_iff] at he
    simp only [List.mem_append] at he
    rcases he with ((((h1 | h2) | h3) | h4) | h5)
    · rw [List.mem_singleton] at h1
      rw [h1]
    · by_cases hlt : issue.created_at < issue.updated_at
      · rw [if_pos hlt, List.mem_singleton] at h2
        rw [h2]
        exact hupd
      · rw [if_neg hlt] at h2
        exact absurd h2 (List.not_mem_nil e)
    · obtain ⟨c, hc, rfl⟩ := List.mem_map.mp h3
      obtain ⟨hcm, hcid⟩ := commentsForIssue_mem st issue_id c hc
      exact hcom c hcm hcid
    · obtain ⟨l, hl, rfl⟩ := List.mem_map.mp h4
      exact hupd
    · cases hr : issue.resolved_at with
      | none =>
        rw [hr] at h5
        exact absurd h5 (List.not_mem_nil e)
      | some t =>
        rw [hr, List.mem_singleton] at h5
        rw [h5]
        exact hres t hr

/-- Concrete instantiation of C9 at `issueWitness` (its timeline is the
single `created` event). -/
theorem C9_witness :
    (getIssue stWitness 1 = some issueWitness
      ∧ issueWitness.created_at ≤ issueWitness.updated_at)
    ∧ ∃ evs, TimelineService.get_issue_timeline stWitness 1 = .ok evs
        ∧ List.Sorted eventLE evs
        ∧ (∃ e ∈ evs, e.event_type = "created" ∧ e.timestamp = issueWitness.created_at)
        ∧ ∀ e ∈ evs, issueWitness.created_at ≤ e.timestamp :=
  ⟨⟨rfl, by decide⟩,
   C9_timeline_sorted_created_min stWitness 1 issueWitness rfl (by decide)
     (fun t ht => Option.noConfusion ht)
     (fun c hc => absurd hc (List.not_mem_nil c))⟩

end SurgePV
